import Mathlib

/-!
Verification development for the volo_discord_bot recording core.

Shallow embedding of:
  - recording/session.py      (SessionContext, init_session, safe_filename)
  - recording/ffmpeg_tools.py (concat_wavs_to_opus_ogg, mix_opus_ogg)
  - src/bot/volo_bot.py       (timestamps, transcription drain, session
                               lifecycle, finalize, sink supervision)
  - main.py                   (scribe/stop slash commands, artifact delivery)

External collaborators (Discord client, WhisperSink thread internals,
the ffmpeg subprocess, the filesystem) are modelled at their interface
boundary: uploads and the transcoder are oracles, directory listings are
explicit data, scheduled callbacks are recorded as events.
-/

namespace VoloSpec

/-! ## recording/session.py -/

/-- Characters removed by Python `str.strip()` with no argument
(ASCII whitespace; the session code only ever strips display names). -/
def isPyWs (c : Char) : Bool :=
  c == ' ' || c == '\t' || c == '\n' || c == '\r' || c == '\x0b' || c == '\x0c'

/-- Drop matching characters from the end of a list. -/
def dropEndWhile (p : Char → Bool) (l : List Char) : List Char :=
  (l.reverse.dropWhile p).reverse

/-- Python `s.strip(chars)` on a character list: drop matching characters
from both ends. -/
def pyStripList (p : Char → Bool) (l : List Char) : List Char :=
  dropEndWhile p (l.dropWhile p)

/-- Python `str.strip()` (no argument) on a string. -/
def pyStrip (s : String) : String :=
  String.mk (pyStripList isPyWs s.toList)

/-- The character class `[a-zA-Z0-9._-]` of the regex in `safe_filename`. -/
def allowedChar (c : Char) : Bool :=
  (decide (97 ≤ c.toNat) && decide (c.toNat ≤ 122)) ||
  (decide (65 ≤ c.toNat) && decide (c.toNat ≤ 90)) ||
  (decide (48 ≤ c.toNat) && decide (c.toNat ≤ 57)) ||
  c == '.' || c == '_' || c == '-'

/-- `re.sub(r"[^a-zA-Z0-9._-]+", "_", ·)`: every maximal run of characters
outside the class is replaced by a single underscore.  The boolean flag
records whether we are inside such a run. -/
def subAux : Bool → List Char → List Char
  | _, [] => []
  | inRun, c :: rest =>
    if allowedChar c then c :: subAux false rest
    else if inRun then subAux true rest
    else '_' :: subAux true rest

/-- The strip set of `sanitized.strip("._")`. -/
def isDU (c : Char) : Bool := c == '.' || c == '_'

/-- `recording/session.py` `safe_filename`:
`sanitized = re.sub(r"[^a-zA-Z0-9._-]+", "_", name.strip())`,
`sanitized = sanitized.strip("._")`, `return sanitized or "unknown"`. -/
def safe_filename (name : String) : String :=
  let sanitized := subAux false (pyStripList isPyWs name.toList)
  let stripped := pyStripList isDU sanitized
  if stripped.isEmpty then "unknown" else String.mk stripped

/-- `recording/session.py` `SessionContext` dataclass.  `display_names` is a
Python dict keyed by user id; it is modelled as an association list where the
most recent write is at the front (`dictSet` below). -/
structure SessionContext where
  session_id : String
  session_dir : String
  chunks_dir : String
  audio_dir : String
  chunk_index : Nat := 0
  transcript_lines : List String := []
  display_names : List (Int × String) := []
deriving Repr, DecidableEq

/-- Python dict write `m[k] = v` (last write wins for `dictGet`). -/
def dictSet (m : List (Int × String)) (k : Int) (v : String) : List (Int × String) :=
  (k, v) :: m

/-- Python dict read `m.get(k, d)`. -/
def dictGet (m : List (Int × String)) (k : Int) (d : String) : String :=
  match m.find? (fun e => e.1 == k) with
  | some e => e.2
  | none => d

/-- `recording/session.py` `init_session`: the session id is the creation
timestamp (an external input here); directories are derived from it and
created eagerly (directory creation itself is a filesystem effect, the
derived paths are what the rest of the code consumes). -/
def init_session (base_dir : String) (session_id : String) : SessionContext :=
  let session_dir := base_dir ++ "/" ++ session_id
  { session_id := session_id
    session_dir := session_dir
    chunks_dir := session_dir ++ "/chunks"
    audio_dir := session_dir ++ "/audio" }

example : safe_filename "  héllo wörld!  " = "h_llo_w_rld" := by decide
example : safe_filename "" = "unknown" := by decide
example : safe_filename "...__." = "unknown" := by decide
example : safe_filename "_ab-c_" = "ab-c" := by decide

/-! ## recording/ffmpeg_tools.py

The ffmpeg subprocess is an external collaborator; an invocation is recorded
as an event.  The empty-input guards (`raise ValueError(...)`) are the code
paths the spec calls `NoInput`. -/

/-- The `ValueError` raised on an empty input list. -/
inductive FfErr where
  | noInput
deriving Repr, DecidableEq

/-- Observable effects of the audio-export functions: one ffmpeg concat
invocation (with its list file and ordered entries), one ffmpeg amix
invocation, or a plain `shutil.copy2`. -/
inductive FfEvent where
  | runConcat (listFile : String) (entries : List String) (out : String) (bitrate : String)
  | runMix (inputs : List String) (out : String) (bitrate : String)
  | copy (src : String) (dst : String)
deriving Repr, DecidableEq

/-- Whether an event is an actual ffmpeg (transcoding-utility) invocation. -/
def isFfmpegRun : FfEvent → Bool
  | .runConcat .. => true
  | .runMix .. => true
  | .copy .. => false

/-- `out_ogg.with_suffix(".concat.txt")`: at both call sites the output path
ends in `.ogg`, which `with_suffix` replaces. -/
def withConcatSuffix (out : String) : String :=
  String.mk (out.toList.dropLast.dropLast.dropLast.dropLast) ++ ".concat.txt"

/-- `ffmpeg_tools.concat_wavs_to_opus_ogg`: reject an empty list, write the
ordered concat list file, invoke ffmpeg once.  Returns the events and the
files written. -/
def concat_wavs_to_opus_ogg (wavs : List String) (out_ogg : String)
    (bitrate : String) : Except FfErr (List FfEvent × List String) :=
  if wavs.isEmpty then .error .noInput
  else
    let concat_txt := withConcatSuffix out_ogg
    .ok ([.runConcat concat_txt wavs out_ogg bitrate], [concat_txt, out_ogg])

/-- `ffmpeg_tools.mix_opus_ogg`: reject an empty list; copy a single input
without invoking ffmpeg; otherwise invoke ffmpeg once with an
`amix=...:normalize=0` filter. -/
def mix_opus_ogg (inputs : List String) (out_ogg : String)
    (bitrate : String) : Except FfErr (List FfEvent × List String) :=
  match inputs with
  | [] => .error .noInput
  | [single] => .ok ([.copy single out_ogg], [out_ogg])
  | _ => .ok ([.runMix inputs out_ogg bitrate], [out_ogg])

/-! ## volo_bot.py: timestamps -/

/-- Python `f"{n:02d}"` for a nonnegative value. -/
def pad2 (n : Nat) : String :=
  if n < 10 then "0" ++ toString n else toString n

/-- `VoloBot._format_timestamp`: `divmod` twice, `hh:mm:ss` when the hour
part is nonzero, `mm:ss` otherwise. -/
def formatTimestamp (total_seconds : Nat) : String :=
  let minutes := total_seconds / 60
  let seconds := total_seconds % 60
  let hours := minutes / 60
  let minutes := minutes % 60
  if hours ≠ 0 then pad2 hours ++ ":" ++ pad2 minutes ++ ":" ++ pad2 seconds
  else pad2 minutes ++ ":" ++ pad2 seconds

example : formatTimestamp 60 = "01:00" := by decide
example : formatTimestamp 3661 = "01:01:01" := by decide

/-! ## volo_bot.py: transcription queue drain

A queue item is either a dict (`{"log": {"data": ..., "user_id": ...},
"wav_b64": ...}`) or an opaque non-dict value.  A missing `log` key defaults
to `{}`.  `user_id` is `some uid` when `int(payload.get("user_id"))`
succeeds; `none` models a missing or non-decodable id, on which Python
raises (`TypeError` for `int(None)` / `ValueError` for a bad string). -/

/-- The `"log"` payload of a queue item. -/
structure Payload where
  data : Option String := none
  user_id : Option Int := none
deriving Repr, DecidableEq

/-- A transcription queue item. -/
inductive QItem where
  | dict (log : Option Payload) (wav_b64 : String)
  | raw (s : String)
deriving Repr, DecidableEq

/-- A Python exception escaping the bot's own code: `int(...)` on a missing
or undecodable value, or a `ValueError` bubbling out of the ffmpeg helpers
when they are handed an empty list. -/
inductive PyError where
  | intConversion
  | ffNoInput
deriving Repr, DecidableEq

/-- `VoloBot._handle_transcription_item` on a dict item, given an active
session.  `cs` is `CHUNK_SECONDS`, `resolve` the display-name lookup
(external collaborator; `_resolve_display_name` never raises).  Returns the
updated session, the chunk number assigned to this item (when one was), and
the chunk file written (`(user_id, chunk_number)` stands for
`chunks/<user_id>/chunk_<chunk_number>.wav`, written only when `wav_b64` is
non-empty). -/
def handle_transcription_item (cs : Nat) (resolve : Int → String)
    (sess : Option SessionContext) (log : Option Payload) (wav_b64 : String) :
    Except PyError (Option SessionContext × Option Nat × Option (Int × Nat)) :=
  match sess with
  | none => .ok (none, none, none)
  | some session =>
    let payload := log.getD {}
    let text := pyStrip (payload.data.getD "")
    if text = "" then .ok (some session, none, none)
    else
      match payload.user_id with
      | none => .error .intConversion
      | some user_id =>
        let chunk_number := session.chunk_index + 1
        let written := if wav_b64 ≠ "" then some (user_id, chunk_number) else none
        let display_name := resolve user_id
        let timestamp := formatTimestamp ((chunk_number - 1) * cs)
        let session :=
          { session with
            chunk_index := chunk_number
            display_names := dictSet session.display_names user_id display_name
            transcript_lines := session.transcript_lines ++
              ["[" ++ timestamp ++ "] " ++ display_name ++ ": " ++ text] }
        .ok (some session, some chunk_number, written)

/-- Result of one drain of the transcription queue: the session state, the
`transcriptions` list returned to the caller, and the chunk numbers assigned
during the drain (in order). -/
structure DrainOut where
  sess : Option SessionContext
  transcriptions : List String
  assigned : List Nat
deriving Repr, DecidableEq

/-- `VoloBot.get_transcription`: drain the queue to exhaustion.  Dict items
go through `_handle_transcription_item` (whose exception, unhandled in the
source, aborts the whole drain); non-dict items are passed through. -/
def get_transcription (cs : Nat) (resolve : Int → String)
    (sess : Option SessionContext) : List QItem → Except PyError DrainOut
  | [] => .ok ⟨sess, [], []⟩
  | .raw s :: rest =>
    match get_transcription cs resolve sess rest with
    | .error e => .error e
    | .ok out => .ok ⟨out.sess, s :: out.transcriptions, out.assigned⟩
  | .dict log wav :: rest =>
    match handle_transcription_item cs resolve sess log wav with
    | .error e => .error e
    | .ok (sess1, assigned, _) =>
      match get_transcription cs resolve sess1 rest with
      | .error e => .error e
      | .ok out =>
        .ok ⟨out.sess, ((log.getD {}).data.getD "") :: out.transcriptions,
             assigned.toList ++ out.assigned⟩

/-- Whether a queue item increments the chunk counter: a dict item whose
trimmed text is non-empty. -/
def incrementsCounter : QItem → Bool
  | .dict log _ => pyStrip (((log.getD {}).data).getD "") ≠ ""
  | .raw _ => false

/-! ## volo_bot.py + main.py: per-guild session lifecycle

The per-guild slice of the process-wide maps: helper/voice-client presence
(`guild_to_helper[g]` with a live `vc`), the `guild_is_recording[g]` flag,
and `active_sessions[g]`.  Commands mutate it from the cooperative loop. -/

/-- Per-guild state as seen by the command handlers. -/
structure GuildState where
  hasHelper : Bool := false
  isRecording : Bool := false
  activeSession : Option SessionContext := none
deriving Repr, DecidableEq

/-- `VoloBot.start_session`: builds the session and registers it
unconditionally (the already-recording guard lives in the `scribe`
command handler). -/
def start_session (st : GuildState) (session_id : String) :
    SessionContext × GuildState :=
  let session := init_session "/data/sessions" session_id
  (session, { st with activeSession := some session })

/-- `VoloBot.stop_session`: `active_sessions.pop(guild_id, None)`. -/
def stop_session (st : GuildState) : Option SessionContext × GuildState :=
  (st.activeSession, { st with activeSession := none })

/-- Outcome of the `/scribe` command. -/
inductive StartResult where
  | notInParty
  | alreadyActive
  | started (s : SessionContext)
deriving Repr, DecidableEq

/-- `main.py` `/scribe` (`ink`): refuse when not connected; refuse when
`guild_is_recording` is already set; otherwise `start_session` then
`start_recording` (which flips the recording flag on). -/
def ink (st : GuildState) (session_id : String) : StartResult × GuildState :=
  if !st.hasHelper then (.notInParty, st)
  else if st.isRecording then (.alreadyActive, st)
  else
    let (session, st1) := start_session st session_id
    (.started session, { st1 with isRecording := true })

/-- Outcome of the `/stop` command. -/
inductive StopResult where
  | notInParty
  | noActiveSession
  | quillRests
  | stopped (s : SessionContext)
deriving Repr, DecidableEq

/-- `main.py` `/stop`: `_get_stop_error_message` refuses when no helper/vc
is registered or the guild is not recording; otherwise the recording flag is
cleared (`_stop_recording_for_guild`) and the session is popped
(`stop_session`); a missing session answers "The quill rests." without
finalization.  Finalization and delivery act on the returned session and do
not touch this state. -/
def stopCommand (st : GuildState) : StopResult × GuildState :=
  if !st.hasHelper then (.notInParty, st)
  else if !st.isRecording then (.noActiveSession, st)
  else
    let st1 := { st with isRecording := false }
    let (popped, st2) := stop_session st1
    match popped with
    | none => (.quillRests, st2)
    | some session => (.stopped session, st2)

/-- The commands that touch this per-guild state: `/connect`,
`/disconnect` (and the equivalent voice-state-update cleanup), `/scribe`,
`/stop`. -/
inductive Cmd where
  | connect
  | disconnect
  | scribe (session_id : String)
  | stop
deriving Repr, DecidableEq

/-- One command step.  `/connect` refuses when a helper is registered;
`/disconnect` removes the helper but touches neither the recording flag nor
the active session (as in the source). -/
def stepCmd (st : GuildState) : Cmd → GuildState
  | .connect => if st.hasHelper then st else { st with hasHelper := true }
  | .disconnect =>
    if st.hasHelper then { st with hasHelper := false } else st
  | .scribe sid => (ink st sid).2
  | .stop => (stopCommand st).2

/-- Run a command sequence from a state. -/
def runCmds (st : GuildState) (cmds : List Cmd) : GuildState :=
  cmds.foldl stepCmd st

/-- The initial per-guild state: empty maps. -/
def initGuild : GuildState := {}

/-! ## volo_bot.py: finalize_session -/

/-- Result of a successful `finalize_session`: the transcript artifact, the
per-speaker track paths, the transcoder events, whether a mix was attempted,
and every file written. -/
structure FinalizeResult where
  transcriptPath : String
  transcriptContent : String
  userOutputs : List String
  events : List FfEvent
  mixAttempted : Bool
  writtenFiles : List String
deriving Repr, DecidableEq

/-- The transcript document: header line with the session id, a blank line,
then all transcript lines, `"\n".join(...) + "\n"`. -/
def transcript_content (session : SessionContext) : String :=
  String.intercalate "\n"
    (["# Transcript – " ++ session.session_id, ""] ++ session.transcript_lines)
    ++ "\n"

/-- The per-speaker export loop of `finalize_session`, over the sorted
listing of `chunks_dir` (each entry: directory name, sorted
`chunk_*.wav` glob).  Directories with no chunk files are skipped before the
`int(...)` conversion; a non-numeric directory name would raise. -/
def exportUserTracks (session : SessionContext) :
    List (String × List String) →
    Except PyError (List String × List FfEvent × List String)
  | [] => .ok ([], [], [])
  | (dirname, wavs) :: rest =>
    if wavs.isEmpty then exportUserTracks session rest
    else
      match dirname.toInt? with
      | none => .error .intConversion
      | some user_id =>
        let display_name := dictGet session.display_names user_id (toString user_id)
        let safe_name := safe_filename display_name
        let out_ogg := session.audio_dir ++ "/user_" ++ toString user_id ++ "_"
          ++ safe_name ++ "_full.ogg"
        match concat_wavs_to_opus_ogg wavs out_ogg "32k" with
        | .error _ => .error .ffNoInput
        | .ok (evs, files) =>
          match exportUserTracks session rest with
          | .error e => .error e
          | .ok (outs, evs2, files2) =>
            .ok (out_ogg :: outs, evs ++ evs2, files ++ files2)

/-- `VoloBot.finalize_session`: write the transcript, export one track per
speaker directory that has chunk files, then mix — unless no track was
produced, in which case log and return without a mix. -/
def finalize_session (session : SessionContext)
    (chunkDirs : List (String × List String)) : Except PyError FinalizeResult :=
  let transcriptPath := session.session_dir ++ "/transcript.md"
  let content := transcript_content session
  match exportUserTracks session chunkDirs with
  | .error e => .error e
  | .ok (user_outputs, evs, files) =>
    if user_outputs.isEmpty then
      .ok ⟨transcriptPath, content, [], evs, false, transcriptPath :: files⟩
    else
      match mix_opus_ogg user_outputs (session.audio_dir ++ "/mixed_full.ogg") "48k" with
      | .error _ => .error .ffNoInput
      | .ok (mevs, mfiles) =>
        .ok ⟨transcriptPath, content, user_outputs, evs ++ mevs, true,
             transcriptPath :: files ++ mfiles⟩

/-- `VoloBot.get_session_artifact_paths`: transcript, mixed track, then the
sorted `user_*_full.ogg` glob (`userGlob`, a filesystem listing), keeping
only paths that exist (`existsF`). -/
def get_session_artifact_paths (session : SessionContext)
    (existsF : String → Bool) (userGlob : List String) : List String :=
  ((session.session_dir ++ "/transcript.md") ::
    (session.audio_dir ++ "/mixed_full.ogg") :: userGlob).filter existsF

/-! ## volo_bot.py: sink supervision (`on_thread_exception`)

`guild_whisper_sinks` is modelled by its key set (the guilds with a
registered sink).  The application context passed to `start_recording` is
opaque apart from its guild id; the scheduled retry captures it whole. -/

/-- A `discord.ApplicationContext` at the boundary: the guild id plus an
opaque remainder, so "retried with the same arguments" is observable. -/
structure Ctx where
  guild_id : Int
  payload : String := ""
deriving Repr, DecidableEq

/-- Observable supervisor effects, in order of occurrence. -/
inductive SupEvent where
  | stopVoiceThread (guild : Int)
  | closeSink (guild : Int)
  | callLaterStartRecording (delaySeconds : Nat) (c : Ctx)
deriving Repr, DecidableEq

/-- Whether an event is the scheduling of a delayed `start_recording`. -/
def isRetrySchedule : SupEvent → Bool
  | .callLaterStartRecording .. => true
  | _ => false

/-- `VoloBot._close_and_clean_sink_for_guild`: when a sink is registered,
stop its voice thread, delete the registration, close it; otherwise do
nothing. -/
def close_and_clean_sink_for_guild (sinks : List Int) (guild : Int) :
    List Int × List SupEvent :=
  if guild ∈ sinks then
    (sinks.erase guild, [.stopVoiceThread guild, .closeSink guild])
  else
    (sinks, [])

/-- The `on_thread_exception` failure callback inside
`start_whisper_sink`: tear the sink down immediately, then
`loop.call_later(5, self.start_recording, ctx)`. -/
def on_thread_exception (sinks : List Int) (c : Ctx) :
    List Int × List SupEvent :=
  let (sinks1, evs) := close_and_clean_sink_for_guild sinks c.guild_id
  (sinks1, evs ++ [.callLaterStartRecording 5 c])

/-- `n` successive worker crashes, each followed by the scheduled retry
firing and `start_recording` re-registering the sink.  There is no retry
counter anywhere in the source: every crash schedules another retry. -/
def crashRetryCycles (c : Ctx) : Nat → List Int → List Int × List SupEvent
  | 0, sinks => (sinks, [])
  | n + 1, sinks =>
    let (sinks1, evs) := on_thread_exception sinks c
    let sinks2 := c.guild_id :: sinks1
    let (sinks3, evs2) := crashRetryCycles c n sinks2
    (sinks3, evs ++ evs2)

/-! ## main.py: artifact delivery -/

/-- Observable delivery effects, in order: one `channel.send` per artifact,
ZIP creation (with the archive member names), the ZIP upload attempt, the
`zip_path.unlink` cleanup, and the final status message. -/
inductive DelivEvent where
  | uploadFile (path : String)
  | zipCreate (path : String) (entries : List String)
  | zipUpload (path : String)
  | zipDelete (path : String)
  | failureNotice (failedNames : List String) (zipUploaded : Bool)
deriving Repr, DecidableEq

/-- `Path(p).name`: the final path component (text after the last slash). -/
def pathNameAux : List Char → List Char → List Char
  | [], acc => acc.reverse
  | '/' :: rest, _ => pathNameAux rest []
  | c :: rest, acc => pathNameAux rest (c :: acc)

/-- `Path(p).name` on a path string with no trailing slash. -/
def pathName (p : String) : String :=
  String.mk (pathNameAux p.toList [])

/-- `_try_upload_artifact`: one `channel.send` attempt; the network outcome
is the oracle `uploadOk`. -/
def try_upload_artifact (uploadOk : String → Bool) (path : String) :
    Bool × List DelivEvent :=
  (uploadOk path, [.uploadFile path])

/-- `_upload_artifact_files`: attempt every artifact in order, collecting
the failures without aborting. -/
def upload_artifact_files (uploadOk : String → Bool) :
    List String → List String × List DelivEvent
  | [] => ([], [])
  | path :: rest =>
    let (ok, evs) := try_upload_artifact uploadOk path
    let (failed, evs2) := upload_artifact_files uploadOk rest
    (if ok then failed else path :: failed, evs ++ evs2)

/-- `_build_session_zip_path`. -/
def build_session_zip_path (session_id : String) : String :=
  ".logs/session_exports/" ++ session_id ++ "_artifacts.zip"

/-- `_create_artifact_zip`: write a fresh ZIP holding exactly the given
files under their basenames; `zipCreateOk` is the oracle for the zipfile
write succeeding (on failure the partial file is removed and `None` is
returned). -/
def create_artifact_zip (zipCreateOk : Bool) (session_id : String)
    (artifact_paths : List String) : Option String × List DelivEvent :=
  let zip_path := build_session_zip_path session_id
  if zipCreateOk then
    (some zip_path, [.zipCreate zip_path (artifact_paths.map pathName)])
  else
    (none, [])

/-- `_upload_zip_fallback`: build the ZIP of the failed files, attempt one
upload (oracle `zipUploadOk`), and unconditionally unlink the ZIP in the
`finally` block. -/
def upload_zip_fallback (zipCreateOk zipUploadOk : Bool) (session_id : String)
    (artifact_paths : List String) : Bool × List DelivEvent :=
  match create_artifact_zip zipCreateOk session_id artifact_paths with
  | (none, evs) => (false, evs)
  | (some zip_path, evs) =>
    (zipUploadOk, evs ++ [.zipUpload zip_path, .zipDelete zip_path])

/-- `_post_session_artifacts`: nothing to do for an empty artifact list;
upload each artifact, and when some failed, run the ZIP fallback on exactly
the failed subset and post the status notice. -/
def post_session_artifacts (uploadOk : String → Bool)
    (zipCreateOk zipUploadOk : Bool) (session_id : String)
    (artifact_paths : List String) : List DelivEvent :=
  if artifact_paths.isEmpty then []
  else
    let (failed, evs) := upload_artifact_files uploadOk artifact_paths
    if failed.isEmpty then evs
    else
      let (zip_uploaded, evs2) :=
        upload_zip_fallback zipCreateOk zipUploadOk session_id failed
      evs ++ evs2 ++ [.failureNotice (failed.map pathName) zip_uploaded]

/-! ## Helper lemmas -/

/-- `_upload_artifact_files` attempts every artifact once, in order, and
returns exactly the failing subset. -/
theorem upload_artifact_files_spec (uploadOk : String → Bool) :
    ∀ paths : List String,
      upload_artifact_files uploadOk paths =
        (paths.filter (fun p => !uploadOk p), paths.map DelivEvent.uploadFile)
  | [] => rfl
  | path :: rest => by
    have ih := upload_artifact_files_spec uploadOk rest
    by_cases h : uploadOk path <;>
      simp [upload_artifact_files, try_upload_artifact, ih, h, List.filter_cons]

/-- The export loop skips every speaker directory with no chunk files. -/
theorem exportUserTracks_empty (session : SessionContext) :
    ∀ chunkDirs : List (String × List String),
      (∀ d ∈ chunkDirs, d.2 = ([] : List String)) →
      exportUserTracks session chunkDirs = .ok ([], [], [])
  | [], _ => rfl
  | (dirname, wavs) :: rest, h => by
    have hw : wavs = [] := h (dirname, wavs) (by simp)
    subst hw
    simpa [exportUserTracks] using
      exportUserTracks_empty session rest
        (fun d hd => h d (List.mem_cons_of_mem _ hd))

/-- Two derived paths with different file names are different strings. -/
theorem mixed_ne_transcript (a b : String) :
    (a ++ "/mixed_full.ogg") ≠ (b ++ "/transcript.md") := by
  intro h
  have hd : (a ++ "/mixed_full.ogg").data = (b ++ "/transcript.md").data := by
    rw [h]
  rw [String.data_append, String.data_append] at hd
  have h1 : (a.data ++ ("/mixed_full.ogg").data).getLast? = some 'g' := by
    rw [List.getLast?_append_of_ne_nil a.data (by decide)]
    decide
  have h2 : (b.data ++ ("/transcript.md").data).getLast? = some 'd' := by
    rw [List.getLast?_append_of_ne_nil b.data (by decide)]
    decide
  rw [hd, h2] at h1
  exact absurd h1 (by decide)

/-! ## Claims -/

/-- C6: `concat_wavs_to_opus_ogg` on an empty chunk list and `mix_opus_ogg`
on an empty input list both fail with the no-input error; `mix_opus_ogg` on
exactly one input copies that file to the output path without invoking the
transcoding utility. -/
theorem C6_export_no_input (out_ogg bitrate : String) :
    concat_wavs_to_opus_ogg [] out_ogg bitrate = .error .noInput ∧
    mix_opus_ogg [] out_ogg bitrate = .error .noInput ∧
    ∀ single : String,
      mix_opus_ogg [single] out_ogg bitrate =
        .ok ([FfEvent.copy single out_ogg], [out_ogg]) ∧
      ∀ e ∈ [FfEvent.copy single out_ogg], isFfmpegRun e = false := by
  refine ⟨rfl, rfl, fun single => ⟨rfl, ?_⟩⟩
  intro e he
  simp only [List.mem_singleton] at he
  subst he
  rfl

/-- Witness for C6 at a concrete output path and single input. -/
theorem C6_export_no_input_witness :
    concat_wavs_to_opus_ogg [] "out.ogg" "32k" = .error .noInput ∧
    mix_opus_ogg ["a.ogg"] "out.ogg" "48k" =
      .ok ([FfEvent.copy "a.ogg" "out.ogg"], ["out.ogg"]) :=
  ⟨(C6_export_no_input "out.ogg" "32k").1,
   ((C6_export_no_input "out.ogg" "48k").2.2 "a.ogg").1⟩

/-- C9: an unhandled whisper-sink thread exception immediately stops and
removes the registered sink and then schedules exactly one delayed
`start_recording` retry with the same context after 5 seconds; over `n`
successive crashes the supervisor schedules `n` retries — there is no cap. -/
theorem C9_crash_retry (sinks : List Int) (c : Ctx)
    (h : c.guild_id ∈ sinks) :
    on_thread_exception sinks c =
      (sinks.erase c.guild_id,
       [SupEvent.stopVoiceThread c.guild_id, SupEvent.closeSink c.guild_id,
        SupEvent.callLaterStartRecording 5 c]) ∧
    ∀ (n : Nat) (st : List Int),
      ((crashRetryCycles c n st).2.countP isRetrySchedule) = n := by
  constructor
  · simp [on_thread_exception, close_and_clean_sink_for_guild, h]
  · intro n
    induction n with
    | zero => intro st; rfl
    | succ k ih =>
      intro st
      by_cases hg : c.guild_id ∈ st <;>
        simp [crashRetryCycles, on_thread_exception,
              close_and_clean_sink_for_guild, hg, List.countP_append,
              List.countP_cons, isRetrySchedule, ih, Nat.add_comm]

/-- Witness for C9: one registered sink for guild 1 crashing. -/
theorem C9_crash_retry_witness :
    (1 : Int) ∈ [(1 : Int)] ∧
    on_thread_exception [(1 : Int)] ⟨1, ""⟩ =
      (([(1 : Int)]).erase 1,
       [SupEvent.stopVoiceThread 1, SupEvent.closeSink 1,
        SupEvent.callLaterStartRecording 5 ⟨1, ""⟩]) :=
  ⟨by decide, (C9_crash_retry [(1 : Int)] ⟨1, ""⟩ (by decide)).1⟩

/-- C2 counterexample: a queue holding a malformed item (non-empty text,
no decodable speaker id) followed by a well-formed item.  The drain raises
out of `_handle_transcription_item` instead of dropping the malformed item,
so the well-formed item is never processed. -/
theorem C2_counterexample :
    get_transcription 30 (fun _ => "Name")
      (some (init_session "/data/sessions" "S"))
      [QItem.dict (some { data := some "hello", user_id := none }) "",
       QItem.dict (some { data := some "world", user_id := some 1 }) "QUJD"] =
      .error .intConversion := by
  rfl

/-- C2 amended: during a queue drain, an item whose payload has non-empty
text but no decodable speaker id raises an int-conversion error that aborts
the whole drain; the item is not dropped and no subsequent queue item is
processed. -/
theorem C2_malformed_item_aborts_drain (cs : Nat) (resolve : Int → String)
    (session : SessionContext) (d : Option String) (wav_b64 : String)
    (rest : List QItem) (h : pyStrip (d.getD "") ≠ "") :
    get_transcription cs resolve (some session)
      (QItem.dict (some { data := d, user_id := none }) wav_b64 :: rest) =
      .error .intConversion := by
  simp [get_transcription, handle_transcription_item, h]

/-- Witness for C2: a concrete malformed item aborts a concrete drain. -/
theorem C2_malformed_item_aborts_drain_witness :
    pyStrip ((some "hello" : Option String).getD "") ≠ "" ∧
    get_transcription 30 (fun _ => "Name")
      (some (init_session "/data/sessions" "S"))
      [QItem.dict (some { data := some "hello", user_id := none }) ""] =
      .error .intConversion :=
  ⟨by decide,
   C2_malformed_item_aborts_drain 30 (fun _ => "Name")
     (init_session "/data/sessions" "S") (some "hello") "" [] (by decide)⟩

/-- C4: when some individual artifact uploads fail, delivery still attempts
every artifact in order, then creates one ZIP bundle holding exactly the
failed files, attempts exactly one upload of it, and deletes the bundle
file regardless of that upload's outcome (`zipUploadOk` is arbitrary). -/
theorem C4_delivery_fallback (uploadOk : String → Bool) (zipUploadOk : Bool)
    (session_id : String) (artifact_paths : List String)
    (hne : artifact_paths ≠ [])
    (hfail : artifact_paths.filter (fun p => !uploadOk p) ≠ []) :
    post_session_artifacts uploadOk true zipUploadOk session_id artifact_paths =
      artifact_paths.map DelivEvent.uploadFile ++
      [DelivEvent.zipCreate (build_session_zip_path session_id)
          ((artifact_paths.filter (fun p => !uploadOk p)).map pathName),
       DelivEvent.zipUpload (build_session_zip_path session_id),
       DelivEvent.zipDelete (build_session_zip_path session_id),
       DelivEvent.failureNotice
          ((artifact_paths.filter (fun p => !uploadOk p)).map pathName)
          zipUploadOk] := by
  simp [post_session_artifacts, upload_artifact_files_spec, hne, hfail,
        upload_zip_fallback, create_artifact_zip, List.isEmpty_iff]

/-- Witness for C4: the spec's five-artifact scenario with #2 and #4
failing, once with the bundle upload succeeding and once with it failing —
the bundle holds exactly {#2, #4} and is deleted in both runs. -/
theorem C4_delivery_fallback_witness :
    (["a1", "a2", "a3", "a4", "a5"] : List String) ≠ [] ∧
    (["a1", "a2", "a3", "a4", "a5"].filter
      (fun p => !((p != "a2") && (p != "a4")))) ≠ [] ∧
    post_session_artifacts (fun p => (p != "a2") && (p != "a4")) true true
        "sid" ["a1", "a2", "a3", "a4", "a5"] =
      [DelivEvent.uploadFile "a1", DelivEvent.uploadFile "a2",
       DelivEvent.uploadFile "a3", DelivEvent.uploadFile "a4",
       DelivEvent.uploadFile "a5",
       DelivEvent.zipCreate ".logs/session_exports/sid_artifacts.zip"
         ["a2", "a4"],
       DelivEvent.zipUpload ".logs/session_exports/sid_artifacts.zip",
       DelivEvent.zipDelete ".logs/session_exports/sid_artifacts.zip",
       DelivEvent.failureNotice ["a2", "a4"] true] ∧
    post_session_artifacts (fun p => (p != "a2") && (p != "a4")) true false
        "sid" ["a1", "a2", "a3", "a4", "a5"] =
      [DelivEvent.uploadFile "a1", DelivEvent.uploadFile "a2",
       DelivEvent.uploadFile "a3", DelivEvent.uploadFile "a4",
       DelivEvent.uploadFile "a5",
       DelivEvent.zipCreate ".logs/session_exports/sid_artifacts.zip"
         ["a2", "a4"],
       DelivEvent.zipUpload ".logs/session_exports/sid_artifacts.zip",
       DelivEvent.zipDelete ".logs/session_exports/sid_artifacts.zip",
       DelivEvent.failureNotice ["a2", "a4"] false] := by
  refine ⟨by decide, by decide, ?_, ?_⟩
  · exact (C4_delivery_fallback (fun p => (p != "a2") && (p != "a4")) true
      "sid" ["a1", "a2", "a3", "a4", "a5"] (by decide) (by decide)).trans
      (by decide)
  · exact (C4_delivery_fallback (fun p => (p != "a2") && (p != "a4")) false
      "sid" ["a1", "a2", "a3", "a4", "a5"] (by decide) (by decide)).trans
      (by decide)

/-- C7: a processed item appends the line
`[timestamp] DisplayName: text` where the timestamp is
`(chunk_number - 1) * CHUNK_SECONDS`; the timestamp renders as `mm:ss`
under one hour and `hh:mm:ss` otherwise; the 3rd processed item with a
30-second chunk duration gets timestamp `01:00`. -/
theorem C7_transcript_line_format :
    (∀ (cs : Nat) (resolve : Int → String) (session : SessionContext)
       (d : Option String) (user_id : Int) (wav_b64 : String),
       pyStrip (d.getD "") ≠ "" →
       handle_transcription_item cs resolve (some session)
           (some { data := d, user_id := some user_id }) wav_b64 =
         .ok (some { session with
             chunk_index := session.chunk_index + 1
             display_names :=
               dictSet session.display_names user_id (resolve user_id)
             transcript_lines := session.transcript_lines ++
               ["[" ++ formatTimestamp (session.chunk_index * cs) ++ "] "
                 ++ resolve user_id ++ ": " ++ pyStrip (d.getD "")] },
           some (session.chunk_index + 1),
           if wav_b64 ≠ "" then some (user_id, session.chunk_index + 1)
           else none)) ∧
    (∀ s : Nat, s < 3600 →
      formatTimestamp s = pad2 (s / 60) ++ ":" ++ pad2 (s % 60)) ∧
    (∀ s : Nat, 3600 ≤ s →
      formatTimestamp s =
        pad2 (s / 3600) ++ ":" ++ pad2 (s / 60 % 60) ++ ":" ++
          pad2 (s % 60)) ∧
    formatTimestamp ((3 - 1) * 30) = "01:00" := by
  refine ⟨?_, ?_, ?_, by decide⟩
  · intro cs resolve session d user_id wav_b64 h
    simp [handle_transcription_item, h]
  · intro s hs
    have hm : s / 60 < 60 := Nat.div_lt_of_lt_mul (by omega)
    have h0 : s / 60 / 60 = 0 := Nat.div_eq_of_lt hm
    simp [formatTimestamp, h0, Nat.mod_eq_of_lt hm]
  · intro s hs
    have h1 : s / 60 / 60 = s / 3600 := by
      rw [Nat.div_div_eq_div_mul]
    have h2 : s / 3600 ≠ 0 := by
      have hpos : 1 ≤ s / 3600 :=
        (Nat.one_le_div_iff (by norm_num)).mpr hs
      omega
    simp [formatTimestamp, h1, h2]

/-- Witness for C7: the 3rd processed item (two already processed) of a
session with 30-second chunks appends a `01:00` line. -/
theorem C7_transcript_line_format_witness :
    pyStrip ((some " hi " : Option String).getD "") ≠ "" ∧
    handle_transcription_item 30 (fun _ => "Alice")
        (some { session_id := "S", session_dir := "/data/sessions/S",
                chunks_dir := "/data/sessions/S/chunks",
                audio_dir := "/data/sessions/S/audio", chunk_index := 2 })
        (some { data := some " hi ", user_id := some 7 }) "" =
      .ok (some { session_id := "S", session_dir := "/data/sessions/S",
                  chunks_dir := "/data/sessions/S/chunks",
                  audio_dir := "/data/sessions/S/audio", chunk_index := 3,
                  transcript_lines := ["[01:00] Alice: hi"],
                  display_names := [(7, "Alice")] },
        some 3, none) ∧
    (59 : Nat) < 3600 ∧
    formatTimestamp 59 = pad2 (59 / 60) ++ ":" ++ pad2 (59 % 60) ∧
    (3600 : Nat) ≤ 3661 ∧
    formatTimestamp 3661 =
      pad2 (3661 / 3600) ++ ":" ++ pad2 (3661 / 60 % 60) ++ ":" ++
        pad2 (3661 % 60) := by
  refine ⟨by decide, ?_, by norm_num, ?_, by norm_num, ?_⟩
  · exact (C7_transcript_line_format.1 30 (fun _ => "Alice")
      { session_id := "S", session_dir := "/data/sessions/S",
        chunks_dir := "/data/sessions/S/chunks",
        audio_dir := "/data/sessions/S/audio", chunk_index := 2 }
      (some " hi ") 7 "" (by decide)).trans (by rfl)
  · exact C7_transcript_line_format.2.1 59 (by norm_num)
  · exact C7_transcript_line_format.2.2.1 3661 (by norm_num)

/-- C5: finalizing a session whose chunks directory holds no speaker
directory with chunk files writes the transcript artifact (header plus
lines), produces no audio artifacts, attempts no mix, and does not raise;
and the artifact list only ever names files that exist. -/
theorem C5_finalize_no_audio (session : SessionContext)
    (chunkDirs : List (String × List String))
    (h : ∀ d ∈ chunkDirs, d.2 = ([] : List String)) :
    finalize_session session chunkDirs =
      .ok ⟨session.session_dir ++ "/transcript.md", transcript_content session,
           [], [], false, [session.session_dir ++ "/transcript.md"]⟩ ∧
    get_session_artifact_paths session
        (fun p => p == session.session_dir ++ "/transcript.md") [] =
      [session.session_dir ++ "/transcript.md"] ∧
    ∀ (existsF : String → Bool) (userGlob : List String) (p : String),
      p ∈ get_session_artifact_paths session existsF userGlob →
        existsF p = true := by
  refine ⟨?_, ?_, ?_⟩
  · simp [finalize_session, exportUserTracks_empty session chunkDirs h]
  · have hne : ((session.audio_dir ++ "/mixed_full.ogg") ==
        (session.session_dir ++ "/transcript.md")) = false :=
      beq_eq_false_iff_ne.mpr (mixed_ne_transcript _ _)
    simp [get_session_artifact_paths, List.filter_cons, hne]
  · intro existsF userGlob p hp
    exact List.of_mem_filter hp

/-- Witness for C5: a session with two speaker directories, both without
chunk files (one even has a non-numeric name, which the skip makes
harmless). -/
theorem C5_finalize_no_audio_witness :
    (∀ d ∈ [("42", ([] : List String)), ("abc", [])],
      d.2 = ([] : List String)) ∧
    finalize_session (init_session "/data/sessions" "S")
        [("42", []), ("abc", [])] =
      .ok ⟨"/data/sessions/S/transcript.md", "# Transcript – S\n\n",
           [], [], false, ["/data/sessions/S/transcript.md"]⟩ := by
  have h := C5_finalize_no_audio (init_session "/data/sessions" "S")
    [("42", []), ("abc", [])] (by decide)
  exact ⟨by decide, h.1.trans (by rfl)⟩

/-- The per-guild invariant maintained by the command handlers: a session
is registered exactly while the recording flag is set. -/
def guildInv (st : GuildState) : Prop :=
  st.activeSession.isSome = st.isRecording

/-- Every command preserves the invariant. -/
theorem guildInv_step (st : GuildState) (hinv : guildInv st) (c : Cmd) :
    guildInv (stepCmd st c) := by
  cases c with
  | connect =>
    by_cases h : st.hasHelper <;> simpa [stepCmd, h, guildInv] using hinv
  | disconnect =>
    by_cases h : st.hasHelper <;> simpa [stepCmd, h, guildInv] using hinv
  | scribe sid =>
    by_cases hh : st.hasHelper
    · by_cases hr : st.isRecording
      · simpa [stepCmd, ink, hh, hr, guildInv] using hinv
      · simp [stepCmd, ink, start_session, hh, hr, guildInv]
    · simpa [stepCmd, ink, hh, guildInv] using hinv
  | stop =>
    by_cases hh : st.hasHelper
    · by_cases hr : st.isRecording
      · cases hs : st.activeSession <;>
          simp [stepCmd, stopCommand, stop_session, hh, hr, hs, guildInv]
      · simpa [stepCmd, stopCommand, hh, hr, guildInv] using hinv
    · simpa [stepCmd, stopCommand, hh, guildInv] using hinv

/-- The invariant holds along any run. -/
theorem guildInv_runCmds (st : GuildState) (h : guildInv st) :
    ∀ cmds : List Cmd, guildInv (runCmds st cmds)
  | [] => h
  | c :: rest => guildInv_runCmds (stepCmd st c) (guildInv_step st h c) rest

/-- C1: after any command sequence, a `/scribe` issued while a session is
registered never replaces it and (when the bot is in the party, the only
situation in which the start reaches the session logic) fails with the
already-active answer; a `/scribe` with no registered session creates the
session with its derived directories, assigns the session id, registers it
as active and returns it. -/
theorem C1_start_lifecycle (cmds : List Cmd) (session_id : String) :
    (∀ s, (runCmds initGuild cmds).activeSession = some s →
      (ink (runCmds initGuild cmds) session_id).2 = runCmds initGuild cmds ∧
      ((runCmds initGuild cmds).hasHelper = true →
        ink (runCmds initGuild cmds) session_id =
          (.alreadyActive, runCmds initGuild cmds))) ∧
    ((runCmds initGuild cmds).activeSession = none →
      (runCmds initGuild cmds).hasHelper = true →
      ink (runCmds initGuild cmds) session_id =
        (.started (init_session "/data/sessions" session_id),
         { runCmds initGuild cmds with
           activeSession := some (init_session "/data/sessions" session_id)
           isRecording := true }) ∧
      (init_session "/data/sessions" session_id).session_id = session_id ∧
      (init_session "/data/sessions" session_id).session_dir =
        "/data/sessions" ++ "/" ++ session_id ∧
      (init_session "/data/sessions" session_id).chunks_dir =
        "/data/sessions" ++ "/" ++ session_id ++ "/chunks" ∧
      (init_session "/data/sessions" session_id).audio_dir =
        "/data/sessions" ++ "/" ++ session_id ++ "/audio") := by
  have hinv : guildInv (runCmds initGuild cmds) :=
    guildInv_runCmds initGuild rfl cmds
  constructor
  · intro s hs
    have hr : (runCmds initGuild cmds).isRecording = true := by
      unfold guildInv at hinv
      rw [hs] at hinv
      simpa using hinv.symm
    constructor
    · by_cases hh : (runCmds initGuild cmds).hasHelper <;> simp [ink, hh, hr]
    · intro hh
      simp [ink, hh, hr]
  · intro hs hh
    have hr : (runCmds initGuild cmds).isRecording = false := by
      unfold guildInv at hinv
      rw [hs] at hinv
      simpa using hinv.symm
    refine ⟨?_, rfl, rfl, rfl, rfl⟩
    simp [ink, start_session, hh, hr]

/-- Witness for C1: a start while active fails and keeps the session; a
start while inactive registers the created session. -/
theorem C1_start_lifecycle_witness :
    ((runCmds initGuild [Cmd.connect, Cmd.scribe "A"]).activeSession =
      some (init_session "/data/sessions" "A") ∧
     ink (runCmds initGuild [Cmd.connect, Cmd.scribe "A"]) "B" =
      (.alreadyActive, runCmds initGuild [Cmd.connect, Cmd.scribe "A"])) ∧
    ((runCmds initGuild [Cmd.connect]).activeSession = none ∧
     ink (runCmds initGuild [Cmd.connect]) "B" =
      (.started (init_session "/data/sessions" "B"),
       { runCmds initGuild [Cmd.connect] with
         activeSession := some (init_session "/data/sessions" "B")
         isRecording := true })) := by
  constructor
  · exact ⟨by decide,
      ((C1_start_lifecycle [Cmd.connect, Cmd.scribe "A"] "B").1
        (init_session "/data/sessions" "A") (by decide)).2 (by decide)⟩
  · exact ⟨by decide,
      ((C1_start_lifecycle [Cmd.connect] "B").2 (by decide) (by decide)).1⟩

/-- C3: after any command sequence, a `/stop` with no registered session
observes the no-active-session answer (never a catastrophic error) and
leaves the state unchanged; a `/stop` with a registered session (bot in the
party) removes and returns exactly that session, so a second consecutive
stop observes no active session and changes nothing further. -/
theorem C3_stop_lifecycle (cmds : List Cmd) :
    ((runCmds initGuild cmds).activeSession = none →
      (stopCommand (runCmds initGuild cmds)).2 = runCmds initGuild cmds ∧
      ((stopCommand (runCmds initGuild cmds)).1 = .notInParty ∨
       (stopCommand (runCmds initGuild cmds)).1 = .noActiveSession) ∧
      ((runCmds initGuild cmds).hasHelper = true →
        stopCommand (runCmds initGuild cmds) =
          (.noActiveSession, runCmds initGuild cmds))) ∧
    (∀ s, (runCmds initGuild cmds).activeSession = some s →
      (runCmds initGuild cmds).hasHelper = true →
      stopCommand (runCmds initGuild cmds) =
        (.stopped s,
         { runCmds initGuild cmds with
           isRecording := false, activeSession := none }) ∧
      stopCommand { runCmds initGuild cmds with
          isRecording := false, activeSession := none } =
        (.noActiveSession,
         { runCmds initGuild cmds with
           isRecording := false, activeSession := none })) := by
  have hinv : guildInv (runCmds initGuild cmds) :=
    guildInv_runCmds initGuild rfl cmds
  constructor
  · intro hs
    have hr : (runCmds initGuild cmds).isRecording = false := by
      unfold guildInv at hinv
      rw [hs] at hinv
      simpa using hinv.symm
    by_cases hh : (runCmds initGuild cmds).hasHelper
    · exact ⟨by simp [stopCommand, hh, hr], Or.inr (by simp [stopCommand, hh, hr]),
        fun _ => by simp [stopCommand, hh, hr]⟩
    · exact ⟨by simp [stopCommand, hh], Or.inl (by simp [stopCommand, hh]),
        fun hcontra => absurd hcontra (by simpa using hh)⟩
  · intro s hs hh
    have hr : (runCmds initGuild cmds).isRecording = true := by
      unfold guildInv at hinv
      rw [hs] at hinv
      simpa using hinv.symm
    constructor
    · simp [stopCommand, stop_session, hh, hr, hs]
    · simp [stopCommand, hh]

/-- Witness for C3: stop with an active session returns it; the second
consecutive stop observes no active session; stop with none registered is
the no-active-session answer with the state unchanged. -/
theorem C3_stop_lifecycle_witness :
    ((runCmds initGuild [Cmd.connect, Cmd.scribe "A"]).activeSession =
      some (init_session "/data/sessions" "A") ∧
     stopCommand (runCmds initGuild [Cmd.connect, Cmd.scribe "A"]) =
      (.stopped (init_session "/data/sessions" "A"),
       { runCmds initGuild [Cmd.connect, Cmd.scribe "A"] with
         isRecording := false, activeSession := none })) ∧
    ((runCmds initGuild [Cmd.connect]).activeSession = none ∧
     stopCommand (runCmds initGuild [Cmd.connect]) =
      (.noActiveSession, runCmds initGuild [Cmd.connect])) := by
  constructor
  · exact ⟨by decide,
      ((C3_stop_lifecycle [Cmd.connect, Cmd.scribe "A"]).2
        (init_session "/data/sessions" "A") (by decide) (by decide)).1⟩
  · exact ⟨by decide,
      ((C3_stop_lifecycle [Cmd.connect]).1 (by decide)).2.2 (by decide)⟩

/-- Case analysis of `_handle_transcription_item` on one dict item: either
the trimmed text is empty (counter untouched), or the item increments the
counter — raising when the speaker id is missing, otherwise assigning
chunk number `chunk_index + 1`. -/
theorem handle_item_cases (cs : Nat) (resolve : Int → String)
    (session : SessionContext) (log : Option Payload) (wav_b64 : String) :
    (incrementsCounter (.dict log wav_b64) = false ∧
      handle_transcription_item cs resolve (some session) log wav_b64 =
        .ok (some session, none, none)) ∨
    (incrementsCounter (.dict log wav_b64) = true ∧
      (handle_transcription_item cs resolve (some session) log wav_b64 =
        .error .intConversion ∨
       ∃ s' w, handle_transcription_item cs resolve (some session) log wav_b64 =
          .ok (some s', some (session.chunk_index + 1), w) ∧
          s'.chunk_index = session.chunk_index + 1)) := by
  by_cases ht : pyStrip (((log.getD {}).data).getD "") = ""
  · exact Or.inl ⟨by simp [incrementsCounter, ht],
      by simp [handle_transcription_item, ht]⟩
  · refine Or.inr ⟨by simp [incrementsCounter, ht], ?_⟩
    cases hu : (log.getD {}).user_id with
    | none => exact Or.inl (by simp [handle_transcription_item, ht, hu])
    | some uid =>
      refine Or.inr ⟨{ session with
          chunk_index := session.chunk_index + 1
          display_names := dictSet session.display_names uid (resolve uid)
          transcript_lines := session.transcript_lines ++
            ["[" ++ formatTimestamp (session.chunk_index * cs) ++ "] "
              ++ resolve uid ++ ": " ++ pyStrip (((log.getD {}).data).getD "")] },
        (if wav_b64 ≠ "" then some (uid, session.chunk_index + 1) else none),
        ?_, rfl⟩
      simp [handle_transcription_item, ht, hu]

/-- Along any successful drain, the chunk numbers assigned are exactly the
consecutive range starting one past the initial counter, and the final
counter grew by the number of counter-incrementing items. -/
theorem drain_assigned_spec (cs : Nat) (resolve : Int → String) :
    ∀ (items : List QItem) (session : SessionContext) (out : DrainOut),
      get_transcription cs resolve (some session) items = .ok out →
      out.assigned =
        List.range' (session.chunk_index + 1)
          (items.countP incrementsCounter) ∧
      ∃ final, out.sess = some final ∧
        final.chunk_index =
          session.chunk_index + items.countP incrementsCounter
  | [], session, out, h => by
    rw [get_transcription] at h
    cases h
    exact ⟨rfl, session, rfl, rfl⟩
  | .raw s :: rest, session, out, h => by
    rw [get_transcription] at h
    cases hrec : get_transcription cs resolve (some session) rest with
    | error e => rw [hrec] at h; cases h
    | ok out2 =>
      rw [hrec] at h
      cases h
      obtain ⟨ha, final, hf, hc⟩ :=
        drain_assigned_spec cs resolve rest session out2 hrec
      refine ⟨?_, final, hf, ?_⟩ <;>
        simp [List.countP_cons, incrementsCounter, ha, hc]
  | .dict log wav :: rest, session, out, h => by
    rw [get_transcription] at h
    rcases handle_item_cases cs resolve session log wav with
      ⟨hinc, hh⟩ | ⟨hinc, herr | ⟨s', w, hh, hcs⟩⟩
    · simp only [hh] at h
      cases hrec : get_transcription cs resolve (some session) rest with
      | error e => rw [hrec] at h; cases h
      | ok out2 =>
        rw [hrec] at h
        cases h
        obtain ⟨ha, final, hf, hc⟩ :=
          drain_assigned_spec cs resolve rest session out2 hrec
        refine ⟨?_, final, hf, ?_⟩ <;>
          simp [List.countP_cons, hinc, ha, hc]
    · rw [herr] at h
      cases h
    · simp only [hh] at h
      cases hrec : get_transcription cs resolve (some s') rest with
      | error e => rw [hrec] at h; cases h
      | ok out2 =>
        rw [hrec] at h
        cases h
        obtain ⟨ha, final, hf, hc⟩ :=
          drain_assigned_spec cs resolve rest s' out2 hrec
        constructor
        · show (some (session.chunk_index + 1)).toList ++ out2.assigned = _
          rw [ha, hcs]
          simp [List.countP_cons, hinc, List.range'_succ]
        · refine ⟨final, hf, ?_⟩
          rw [hc, hcs]
          simp [List.countP_cons, hinc]
          omega

/-- C8: over any successfully drained item sequence, the chunk counter is
incremented exactly once per counter-incrementing (non-empty-text) item,
shared across all speakers; the assigned chunk numbers form the strictly
increasing consecutive range after the initial counter value, regardless of
how items interleave among speakers. -/
theorem C8_chunk_numbering (cs : Nat) (resolve : Int → String)
    (session : SessionContext) (items : List QItem) (out : DrainOut)
    (h : get_transcription cs resolve (some session) items = .ok out) :
    out.assigned =
      List.range' (session.chunk_index + 1)
        (items.countP incrementsCounter) ∧
    (∃ final, out.sess = some final ∧
      final.chunk_index =
        session.chunk_index + items.countP incrementsCounter) ∧
    List.Pairwise (· < ·) out.assigned := by
  obtain ⟨ha, hf⟩ := drain_assigned_spec cs resolve items session out h
  refine ⟨ha, hf, ?_⟩
  rw [ha]
  exact List.pairwise_lt_range' ..

/-- Witness for C8: a drain with three dict items from interleaved
speakers (one with blank text) and one raw item assigns the strictly
increasing chunk numbers 1 and 2. -/
theorem C8_chunk_numbering_witness :
    get_transcription 30 (fun _ => "N")
      (some (init_session "/data/sessions" "S"))
      [QItem.dict (some { data := some "hi", user_id := some 1 }) "",
       QItem.raw "x",
       QItem.dict (some { data := some "  ", user_id := some 2 }) "",
       QItem.dict (some { data := some "yo", user_id := some 2 }) ""] =
      .ok ⟨some { session_id := "S", session_dir := "/data/sessions/S",
                  chunks_dir := "/data/sessions/S/chunks",
                  audio_dir := "/data/sessions/S/audio", chunk_index := 2,
                  transcript_lines := ["[00:00] N: hi", "[00:30] N: yo"],
                  display_names := [(2, "N"), (1, "N")] },
           ["hi", "x", "  ", "yo"], [1, 2]⟩ ∧
    ([1, 2] : List Nat) = List.range' 1 2 ∧
    List.Pairwise (· < ·) ([1, 2] : List Nat) := by
  refine ⟨by rfl, by rfl, ?_⟩
  have h := C8_chunk_numbering 30 (fun _ => "N")
    (init_session "/data/sessions" "S")
    [QItem.dict (some { data := some "hi", user_id := some 1 }) "",
     QItem.raw "x",
     QItem.dict (some { data := some "  ", user_id := some 2 }) "",
     QItem.dict (some { data := some "yo", user_id := some 2 }) ""]
    ⟨some { session_id := "S", session_dir := "/data/sessions/S",
            chunks_dir := "/data/sessions/S/chunks",
            audio_dir := "/data/sessions/S/audio", chunk_index := 2,
            transcript_lines := ["[00:00] N: hi", "[00:30] N: yo"],
            display_names := [(2, "N"), (1, "N")] },
     ["hi", "x", "  ", "yo"], [1, 2]⟩ (by rfl)
  exact h.2.2

/-- Every character produced by the regex substitution is in the allowed
class (kept characters are allowed, inserted characters are underscores). -/
theorem subAux_allowed : ∀ (b : Bool) (l : List Char),
    ∀ c ∈ subAux b l, allowedChar c = true
  | _, [] => by intro c hc; simp [subAux] at hc
  | b, c0 :: rest => by
    intro c hc
    by_cases ha : allowedChar c0
    · rw [subAux, if_pos ha] at hc
      rcases List.mem_cons.mp hc with rfl | hm
      · exact ha
      · exact subAux_allowed false rest c hm
    · rw [subAux, if_neg ha] at hc
      cases b with
      | true => exact subAux_allowed true rest c (by simpa using hc)
      | false =>
        rcases List.mem_cons.mp (by simpa using hc) with rfl | hm
        · decide
        · exact subAux_allowed true rest c hm

/-- The head of `dropWhile p` never satisfies `p`. -/
theorem head_dropWhile_false (p : Char → Bool) :
    ∀ (l : List Char) (c : Char),
      (l.dropWhile p).head? = some c → p c = false
  | [], c, h => by simp at h
  | a :: t, c, h => by
    by_cases ha : p a
    · rw [List.dropWhile_cons, if_pos ha] at h
      exact head_dropWhile_false p t c h
    · rw [List.dropWhile_cons, if_neg ha] at h
      cases h
      simpa using ha

/-- `dropWhile` keeps the last element when it keeps anything at all. -/
theorem getLast?_dropWhile (p : Char → Bool) :
    ∀ l : List Char, l.dropWhile p ≠ [] →
      (l.dropWhile p).getLast? = l.getLast?
  | [], h => by simp at h
  | a :: t, h => by
    by_cases ha : p a
    · rw [List.dropWhile_cons, if_pos ha] at h ⊢
      have ht : t ≠ [] := by
        intro hteq
        subst hteq
        simp at h
      rw [getLast?_dropWhile p t h]
      cases t with
      | nil => exact absurd rfl ht
      | cons b t2 => rw [List.getLast?_cons_cons]
    · rw [List.dropWhile_cons, if_neg ha]

/-- Stripping both ends only removes characters. -/
theorem mem_pyStripList (p : Char → Bool) (l : List Char) (c : Char)
    (h : c ∈ pyStripList p l) : c ∈ l := by
  unfold pyStripList dropEndWhile at h
  have h1 := List.mem_reverse.mp h
  have h2 := (List.dropWhile_sublist p).mem h1
  have h3 := List.mem_reverse.mp h2
  exact (List.dropWhile_sublist p).mem h3

/-- The first character surviving a two-sided strip is not in the strip
set. -/
theorem pyStripList_head_not (p : Char → Bool) (l : List Char) (c : Char)
    (h : (pyStripList p l).head? = some c) : p c = false := by
  unfold pyStripList dropEndWhile at h
  rw [List.head?_reverse] at h
  have hY : (l.dropWhile p).reverse.dropWhile p ≠ [] := by
    intro hnil
    rw [hnil] at h
    simp at h
  rw [getLast?_dropWhile p _ hY, List.getLast?_reverse] at h
  exact head_dropWhile_false p l c h

/-- The last character surviving a two-sided strip is not in the strip
set. -/
theorem pyStripList_getLast_not (p : Char → Bool) (l : List Char) (c : Char)
    (h : (pyStripList p l).getLast? = some c) : p c = false := by
  unfold pyStripList dropEndWhile at h
  rw [List.getLast?_reverse] at h
  exact head_dropWhile_false p _ c h

/-- C10: `safe_filename` always returns a non-empty string of characters
from `[a-zA-Z0-9._-]` that neither begins nor ends with a dot or an
underscore, and returns the fallback `"unknown"` exactly when sanitizing
and stripping leave nothing. -/
theorem C10_safe_filename_sound (name : String) :
    safe_filename name ≠ "" ∧
    (∀ c ∈ (safe_filename name).toList, allowedChar c = true) ∧
    (∀ c, (safe_filename name).toList.head? = some c → isDU c = false) ∧
    (∀ c, (safe_filename name).toList.getLast? = some c → isDU c = false) ∧
    (pyStripList isDU (subAux false (pyStripList isPyWs name.toList)) = [] →
      safe_filename name = "unknown") := by
  have hdef : safe_filename name =
      (if (pyStripList isDU
            (subAux false (pyStripList isPyWs name.toList))).isEmpty
       then "unknown"
       else String.mk (pyStripList isDU
            (subAux false (pyStripList isPyWs name.toList)))) := rfl
  by_cases he : (pyStripList isDU
      (subAux false (pyStripList isPyWs name.toList))).isEmpty
  · rw [hdef, if_pos he]
    refine ⟨by decide, by decide, ?_, ?_, fun _ => rfl⟩
    · intro c h
      have hc : c = 'u' := by simpa using h.symm
      subst hc
      decide
    · intro c h
      have hc : c = 'n' := by simpa using h.symm
      subst hc
      decide
  · rw [hdef, if_neg he]
    have hne : pyStripList isDU
        (subAux false (pyStripList isPyWs name.toList)) ≠ [] := by
      simpa using he
    refine ⟨?_, ?_, ?_, ?_, ?_⟩
    · intro h
      exact hne (congrArg String.data h)
    · intro c hc
      exact subAux_allowed false _ c (mem_pyStripList isDU _ c hc)
    · intro c h
      exact pyStripList_head_not isDU _ c h
    · intro c h
      exact pyStripList_getLast_not isDU _ c h
    · intro h0
      exact absurd h0 hne

/-- Witness for C10: a name needing substitution and end-stripping, and an
all-symbol name falling back to `"unknown"`. -/
theorem C10_safe_filename_sound_witness :
    safe_filename "..x/y.." ≠ "" ∧
    allowedChar 'x' = true ∧ isDU 'x' = false ∧ isDU 'y' = false ∧
    safe_filename "++" = "unknown" := by
  have h := C10_safe_filename_sound "..x/y.."
  have h2 := C10_safe_filename_sound "++"
  exact ⟨h.1, h.2.1 'x' (by decide), h.2.2.1 'x' (by decide),
    h.2.2.2.1 'y' (by decide), h2.2.2.2.2 (by decide)⟩

end VoloSpec
